import Mathlib

/-!
# Shallow embedding of the three CRUD microservices

This file embeds the request handlers of the customer, order and product
services (`src/backend/*/app/main.py`) as pure Lean functions over explicit
store states, and proves the claims of the specification against them.

Modelling conventions:
* Each service's table is a list of rows in insertion order together with the
  next autogenerated id (`*Store`).
* The storage adapter's commit is modelled by a `commit*` function: it checks
  the table's uniqueness constraints (an `integrity` failure) and an injected
  environment fault flag (`operational`, standing for any other storage
  failure at commit time).
* A handler returns an `Outcome`: a successful HTTP response with a body and
  the committed store, a handled HTTP error (the store it carries is the
  store after rollback), or an unhandled exception propagating out of the
  handler (for code paths with no try/except).  A failed commit never
  persists its pending changes, so the store carried by an error outcome is
  the pre-operation store in every case; the difference between `httpError`
  and `unhandled` is whether the handler itself caught the failure and
  produced an HTTP response.
-/

namespace Backend

/-- Storage-layer failures that can surface at commit time: a uniqueness
(integrity) violation, or any other storage failure (connection loss, etc.). -/
inductive DbError
  | integrity
  | operational
deriving DecidableEq, Repr

/-- Result of one handler invocation over a store of type `σ` with response
body type `α`. -/
inductive Outcome (α σ : Type)
  | ok (stat : Nat) (body : α) (store : σ)
  | httpError (stat : Nat) (detail : String) (store : σ)
  | unhandled (err : DbError) (store : σ)
deriving DecidableEq, Repr

/-- The HTTP status of an outcome, when the handler produced a response. -/
def statusOf {α σ : Type} : Outcome α σ → Option Nat
  | .ok s _ _ => some s
  | .httpError s _ _ => some s
  | .unhandled _ _ => none

/-- The store state after the outcome. -/
def storeOf {α σ : Type} : Outcome α σ → σ
  | .ok _ _ st => st
  | .httpError _ _ st => st
  | .unhandled _ st => st

/-- Whether the handler itself produced an HTTP error response. -/
def isHttpError {α σ : Type} : Outcome α σ → Bool
  | .httpError _ _ _ => true
  | _ => false

/-- `nodupBy f l`: no two elements of `l` share the key `f`.  Models a
storage-layer unique constraint on the column extracted by `f`. -/
def nodupBy {α β : Type} [BEq β] (f : α → β) : List α → Bool
  | [] => true
  | a :: t => !(t.any (fun b => f b == f a)) && nodupBy f t

/-- `leadsWith need hay`: `hay` begins with the characters of `need`. -/
def leadsWith : List Char → List Char → Bool
  | [], _ => true
  | _ :: _, [] => false
  | a :: as, b :: bs => a == b && leadsWith as bs

/-- `occursIn need hay`: `need` occurs contiguously somewhere in `hay`. -/
def occursIn (need : List Char) : List Char → Bool
  | [] => leadsWith need []
  | c :: t => leadsWith need (c :: t) || occursIn need t

/-- All suffixes of a character list, longest first (the list itself down
to the empty list). -/
def sufs : List Char → List (List Char)
  | [] => [[]]
  | c :: t => (c :: t) :: sufs t

/-- SQL `LIKE` pattern matching over characters that have already been
folded: `%` matches any sequence (the rest of the pattern must match some
suffix of the text), `_` any single character, and every other pattern
character must match the next text character exactly. -/
def likeMatch : List Char → List Char → Bool
  | [], h => h.isEmpty
  | p :: ps, h =>
    if p = '%' then
      (sufs h).any (fun t => likeMatch ps t)
    else
      match h with
      | [] => false
      | c :: t => (if p = '_' then true else p == c) && likeMatch ps t

/-- Characters of a string folded to lower case (the case folding performed
by SQL `ILIKE`). -/
def lowerStr (s : String) : List Char := s.data.map Char.toLower

/-- `ilike field pat`: the storage layer's case-insensitive `LIKE` operator
applied to a column value and a pattern. -/
def ilike (field pat : String) : Bool := likeMatch (lowerStr pat) (lowerStr field)

/-! ## Customer service (`src/backend/customer_service/app/main.py`) -/

/-- A customer row.  The column set is the one named by the spec's data
model (the `models` module itself is not among the handler sources). -/
structure Customer where
  customer_id : Nat
  email : String
  password_hash : String
  first_name : String
  last_name : String
  phone_number : String
  shipping_address : String
deriving DecidableEq, Repr

/-- The validated create payload (`CustomerCreate`). -/
structure CustomerCreate where
  email : String
  password : String
  first_name : String
  last_name : String
  phone_number : String
  shipping_address : String
deriving DecidableEq, Repr

/-- Modelled from the spec: the partial-update payload (`CustomerUpdate`,
whose schema module is not among the handler sources).  Each mutable field
is optional; `none` means the field was absent from the payload, which is
what `model_dump (exclude unset)` omits. -/
structure CustomerUpdate where
  email : Option String
  first_name : Option String
  last_name : Option String
  phone_number : Option String
  shipping_address : Option String
deriving DecidableEq, Repr

/-- The customers table: rows in insertion order plus the next
autogenerated primary key. -/
structure CustomerStore where
  rows : List Customer
  nextId : Nat
deriving DecidableEq, Repr

/-- Modelled from the spec: the storage layer's unique constraint on
`Customer.email` (declared in the `models` module, which is not among the
handler sources). -/
def uniqueEmailsOk (rows : List Customer) : Bool :=
  nodupBy Customer.email rows

/-- Committing the customers table: a pending state violating the email
uniqueness constraint raises an integrity error; an injected storage fault
raises any other storage error; otherwise the pending state is persisted. -/
def commitCustomers (pending : CustomerStore) (fault : Bool) :
    Except DbError CustomerStore :=
  if !uniqueEmailsOk pending.rows then .error .integrity
  else if fault then .error .operational
  else .ok pending

/-- The row constructed by `create_customer` before committing. -/
def newCustomerRow (st : CustomerStore) (c : CustomerCreate) : Customer :=
  { customer_id := st.nextId
    email := c.email
    password_hash := c.password
    first_name := c.first_name
    last_name := c.last_name
    phone_number := c.phone_number
    shipping_address := c.shipping_address }

/-- `POST /customers/`: add the new row and commit; an integrity error rolls
back and yields 400 "Email already registered.", any other failure rolls
back and yields 500. -/
def create_customer (st : CustomerStore) (c : CustomerCreate) (fault : Bool) :
    Outcome Customer CustomerStore :=
  let row := newCustomerRow st c
  match commitCustomers { rows := st.rows ++ [row], nextId := st.nextId + 1 } fault with
  | .ok st' => .ok 201 row st'
  | .error .integrity => .httpError 400 "Email already registered." st
  | .error .operational => .httpError 500 "Could not create customer." st

/-- `GET /customers/`: optional case-insensitive search over first name,
last name and email (applied only when the search string is truthy, i.e.
present and nonempty), then offset `skip` and cap `limit`. -/
def list_customers (st : CustomerStore) (skip limit : Nat)
    (search : Option String) : List Customer :=
  let rows :=
    match search with
    | some s =>
      if s ≠ "" then
        st.rows.filter (fun (c : Customer) =>
          ilike c.first_name ("%" ++ s ++ "%") ||
          ilike c.last_name ("%" ++ s ++ "%") ||
          ilike c.email ("%" ++ s ++ "%"))
      else st.rows
    | none => st.rows
  (rows.drop skip).take limit

/-- `GET /customers/{id}`: first row with the id, else 404. -/
def get_customer (st : CustomerStore) (id : Nat) : Outcome Customer CustomerStore :=
  match st.rows.find? (fun r => r.customer_id == id) with
  | some c => .ok 200 c st
  | none => .httpError 404 "Customer not found" st

/-- Apply a partial update: exactly the fields present in the payload are
overwritten (`setattr` over `model_dump (exclude unset)`). -/
def applyCustomerUpdate (c : Customer) (u : CustomerUpdate) : Customer :=
  { c with
    email := u.email.getD c.email
    first_name := u.first_name.getD c.first_name
    last_name := u.last_name.getD c.last_name
    phone_number := u.phone_number.getD c.phone_number
    shipping_address := u.shipping_address.getD c.shipping_address }

/-- Replace the row with the given primary key. -/
def replaceCustomerById (rows : List Customer) (id : Nat) (c : Customer) :
    List Customer :=
  rows.map (fun r => if r.customer_id == id then c else r)

/-- `PUT /customers/{id}`: 404 when absent; otherwise apply the partial
update and commit, mapping an integrity error to 400 "Updated email already
exists" and any other failure to 500, rolling back in both cases. -/
def update_customer (st : CustomerStore) (id : Nat) (u : CustomerUpdate)
    (fault : Bool) : Outcome Customer CustomerStore :=
  match st.rows.find? (fun r => r.customer_id == id) with
  | none => .httpError 404 "Customer not found" st
  | some c =>
    let c' := applyCustomerUpdate c u
    match commitCustomers { st with rows := replaceCustomerById st.rows id c' } fault with
    | .ok st' => .ok 200 c' st'
    | .error .integrity => .httpError 400 "Updated email already exists" st
    | .error .operational => .httpError 500 "Could not update customer" st

/-- `DELETE /customers/{id}`: 404 when absent; otherwise delete the found
row and commit; every commit failure is caught, rolled back, and mapped
to 500. -/
def delete_customer (st : CustomerStore) (id : Nat) (fault : Bool) :
    Outcome Unit CustomerStore :=
  match st.rows.find? (fun r => r.customer_id == id) with
  | none => .httpError 404 "Customer not found" st
  | some _ =>
    match commitCustomers
        { st with rows := st.rows.eraseP (fun r => r.customer_id == id) } fault with
    | .ok st' => .ok 204 () st'
    | .error _ => .httpError 500 "Could not delete customer" st

/-- Query parameters accepted by `GET /customers/`. -/
def customerListParams : List String := ["skip", "limit", "search"]

/-! ## Product service (`src/backend/product_service/app/main.py`) -/

/-- A product row.  The column set is the one named by the spec's data
model (the `models` module itself is not among the handler sources). -/
structure Product where
  product_id : Nat
  name : String
  sku : String
  description : String
  price : Int
  stock_quantity : Nat
deriving DecidableEq, Repr

/-- The validated create payload (`ProductCreate`). -/
structure ProductCreate where
  name : String
  sku : String
  description : String
  price : Int
  stock_quantity : Nat
deriving DecidableEq, Repr

/-- Modelled from the spec: the partial-update payload (`ProductUpdate`,
whose schema module is not among the handler sources); `none` marks a field
absent from the payload. -/
structure ProductUpdate where
  name : Option String
  sku : Option String
  description : Option String
  price : Option Int
  stock_quantity : Option Nat
deriving DecidableEq, Repr

/-- The products table: rows in insertion order plus the next
autogenerated primary key. -/
structure ProductStore where
  rows : List Product
  nextId : Nat
deriving DecidableEq, Repr

/-- Modelled from the spec: the storage layer's unique name and SKU
constraints on products (declared in the `models` module, which is not
among the handler sources). -/
def productConstraintOk (rows : List Product) : Bool :=
  nodupBy Product.name rows && nodupBy Product.sku rows

/-- Committing the products table: a pending state violating a uniqueness
constraint raises an integrity error; an injected storage fault raises any
other storage error; otherwise the pending state is persisted. -/
def commitProducts (pending : ProductStore) (fault : Bool) :
    Except DbError ProductStore :=
  if !productConstraintOk pending.rows then .error .integrity
  else if fault then .error .operational
  else .ok pending

/-- The row constructed by `create_product` before committing. -/
def newProductRow (st : ProductStore) (p : ProductCreate) : Product :=
  { product_id := st.nextId
    name := p.name
    sku := p.sku
    description := p.description
    price := p.price
    stock_quantity := p.stock_quantity }

/-- `POST /products/`: add the new row and commit; an integrity error rolls
back and yields 400 "Product already exists", any other failure rolls back
and yields 500. -/
def create_product (st : ProductStore) (p : ProductCreate) (fault : Bool) :
    Outcome Product ProductStore :=
  let row := newProductRow st p
  match commitProducts { rows := st.rows ++ [row], nextId := st.nextId + 1 } fault with
  | .ok st' => .ok 201 row st'
  | .error .integrity => .httpError 400 "Product already exists" st
  | .error .operational => .httpError 500 "Could not create product" st

/-- `GET /products/`: offset `skip`, cap `limit`; no search filter. -/
def list_products (st : ProductStore) (skip limit : Nat) : List Product :=
  (st.rows.drop skip).take limit

/-- `GET /products/{id}`: first row with the id, else 404. -/
def get_product (st : ProductStore) (id : Nat) : Outcome Product ProductStore :=
  match st.rows.find? (fun r => r.product_id == id) with
  | some p => .ok 200 p st
  | none => .httpError 404 "Product not found" st

/-- Apply a partial update: exactly the fields present in the payload are
overwritten. -/
def applyProductUpdate (p : Product) (u : ProductUpdate) : Product :=
  { p with
    name := u.name.getD p.name
    sku := u.sku.getD p.sku
    description := u.description.getD p.description
    price := u.price.getD p.price
    stock_quantity := u.stock_quantity.getD p.stock_quantity }

/-- Replace the row with the given primary key. -/
def replaceProductById (rows : List Product) (id : Nat) (p : Product) :
    List Product :=
  rows.map (fun r => if r.product_id == id then p else r)

/-- `PUT /products/{id}`: 404 when absent; otherwise apply the partial
update and commit.  The handler's only except-branch catches every
exception, rolls back, and yields 500 "Could not update product": unlike
the customer handler it has no dedicated integrity-error branch, so a
uniqueness violation is also mapped to 500. -/
def update_product (st : ProductStore) (id : Nat) (u : ProductUpdate)
    (fault : Bool) : Outcome Product ProductStore :=
  match st.rows.find? (fun r => r.product_id == id) with
  | none => .httpError 404 "Product not found" st
  | some p =>
    let p' := applyProductUpdate p u
    match commitProducts { st with rows := replaceProductById st.rows id p' } fault with
    | .ok st' => .ok 200 p' st'
    | .error _ => .httpError 500 "Could not update product" st

/-- `DELETE /products/{id}`: 404 when absent; otherwise delete the found
row and commit; every commit failure is caught, rolled back, and mapped
to 500. -/
def delete_product (st : ProductStore) (id : Nat) (fault : Bool) :
    Outcome Unit ProductStore :=
  match st.rows.find? (fun r => r.product_id == id) with
  | none => .httpError 404 "Product not found" st
  | some _ =>
    match commitProducts
        { st with rows := st.rows.eraseP (fun r => r.product_id == id) } fault with
    | .ok st' => .ok 204 () st'
    | .error _ => .httpError 500 "Could not delete product" st

/-- Query parameters accepted by `GET /products/`. -/
def productListParams : List String := ["skip", "limit"]

/-! ## Order service (`src/backend/order_service/app/main.py`) -/

/-- An order row.  Modelled from the spec: beyond the primary key and the
customer reference, the line-item/amount columns are opaque to the spec and
passed through as given, so they are collapsed into one opaque field. -/
structure Order where
  order_id : Nat
  customer_id : Nat
  line_items : String
deriving DecidableEq, Repr

/-- The validated create payload (`OrderCreate`). -/
structure OrderCreate where
  customer_id : Nat
  line_items : String
deriving DecidableEq, Repr

/-- The orders table: rows in insertion order plus the next autogenerated
primary key. -/
structure OrderStore where
  rows : List Order
  nextId : Nat
deriving DecidableEq, Repr

/-- Committing the orders table: no uniqueness constraint beyond the
autogenerated primary key, so only an injected storage fault can fail. -/
def commitOrders (pending : OrderStore) (fault : Bool) :
    Except DbError OrderStore :=
  if fault then .error .operational else .ok pending

/-- The row constructed by `create_order` before committing. -/
def newOrderRow (st : OrderStore) (o : OrderCreate) : Order :=
  { order_id := st.nextId
    customer_id := o.customer_id
    line_items := o.line_items }

/-- `POST /orders/`: add the new row and commit.  There is no try/except
around the commit: a storage failure propagates out of the handler
unhandled, with no rollback call and no error mapping. -/
def create_order (st : OrderStore) (o : OrderCreate) (fault : Bool) :
    Outcome Order OrderStore :=
  let row := newOrderRow st o
  match commitOrders { rows := st.rows ++ [row], nextId := st.nextId + 1 } fault with
  | .ok st' => .ok 201 row st'
  | .error e => .unhandled e st

/-- `GET /orders/`: returns every row; the handler takes no `skip` or
`limit` parameter. -/
def list_orders (st : OrderStore) : List Order := st.rows

/-- `GET /orders/{id}`: first row with the id, else 404. -/
def get_order (st : OrderStore) (id : Nat) : Outcome Order OrderStore :=
  match st.rows.find? (fun r => r.order_id == id) with
  | some o => .ok 200 o st
  | none => .httpError 404 "Order not found" st

/-- `DELETE /orders/{id}`: 404 when absent; otherwise delete the found row
and commit.  There is no try/except around the commit: a storage failure
propagates out of the handler unhandled. -/
def delete_order (st : OrderStore) (id : Nat) (fault : Bool) :
    Outcome Unit OrderStore :=
  match st.rows.find? (fun r => r.order_id == id) with
  | none => .httpError 404 "Order not found" st
  | some _ =>
    match commitOrders
        { st with rows := st.rows.eraseP (fun r => r.order_id == id) } fault with
    | .ok st' => .ok 204 () st'
    | .error e => .unhandled e st

/-- Query parameters accepted by `GET /orders/`. -/
def orderListParams : List String := []

/-- HTTP methods used by the services. -/
inductive Method
  | GET
  | POST
  | PUT
  | DELETE
  | PATCH
deriving DecidableEq, Repr

/-- The full route table registered by the order service application. -/
def orderServiceRoutes : List (Method × String) :=
  [(.GET, "/health"),
   (.GET, "/"),
   (.POST, "/orders/"),
   (.GET, "/orders/"),
   (.GET, "/orders/{order_id}"),
   (.DELETE, "/orders/{order_id}")]

/-! ## Startup schema provisioning (`startup_event` in each service) -/

/-- What one `Base.metadata.create_all` attempt does, as decided by the
environment: succeed, fail with a connectivity (`OperationalError`)
failure, or fail with any other exception. -/
inductive Attempt
  | ok
  | connFail
  | otherFail
deriving DecidableEq, Repr

/-- How the startup phase ends. -/
inductive StartupResult
  /-- The disable flag was set; the phase was skipped entirely. -/
  | skipped
  /-- Schema creation succeeded on attempt `attemptsUsed`, after `sleeps`
  fixed-delay sleeps. -/
  | success (attemptsUsed sleeps : Nat)
  /-- The handler called the interpreter's exit on a non-connectivity
  failure, terminating the process. -/
  | fatalExit
  /-- A non-connectivity failure propagated out of the startup hook
  uncaught, aborting application startup under the serving runtime. -/
  | unhandledError
  /-- All attempts failed with connectivity errors; the loop ended and the
  service keeps running without a guaranteed schema, after `sleeps`
  sleeps. -/
  | exhausted (sleeps : Nat)
deriving DecidableEq, Repr

/-- The retry loop shared by the three startup hooks.  `env i` is the
outcome of attempt number `i` (0-based); `fatalIsExit` tells whether a
non-connectivity failure is caught and turned into an explicit process
exit (customer service) or propagates uncaught (order and product
services).  A connectivity failure always sleeps the fixed delay before
the next iteration, including on the final attempt. -/
def startupIter (env : Nat → Attempt) (fatalIsExit : Bool) :
    Nat → Nat → Nat → StartupResult
  | 0, _, sleeps => .exhausted sleeps
  | fuel + 1, i, sleeps =>
    match env i with
    | .ok => .success (i + 1) sleeps
    | .connFail => startupIter env fatalIsExit fuel (i + 1) (sleeps + 1)
    | .otherFail => if fatalIsExit then .fatalExit else .unhandledError

/-- The customer service startup hook: skipped when the disable flag is
set; otherwise up to 10 attempts, catching every non-connectivity failure
and exiting the process on it. -/
def startup_event_customer (disable_db : Bool) (env : Nat → Attempt) :
    StartupResult :=
  if disable_db then .skipped else startupIter env true 10 0 0

/-- The order service startup hook: skipped when the disable flag is set;
otherwise up to 10 attempts, catching only connectivity failures. -/
def startup_event_order (disable_db : Bool) (env : Nat → Attempt) :
    StartupResult :=
  if disable_db then .skipped else startupIter env false 10 0 0

/-- The product service startup hook: skipped when the disable flag is
set; otherwise up to 10 attempts, catching only connectivity failures. -/
def startup_event_product (disable_db : Bool) (env : Nat → Attempt) :
    StartupResult :=
  if disable_db then .skipped else startupIter env false 10 0 0

/-! ## Spec-side definitions for refinement comparisons -/

/-- Modelled from the spec's words (for comparison with `list_customers`):
a customer matches a search string when the first name, last name or email
contains it as a case-insensitive substring. -/
def specSearchMatch (s : String) (c : Customer) : Bool :=
  occursIn (lowerStr s) (lowerStr c.first_name) ||
  occursIn (lowerStr s) (lowerStr c.last_name) ||
  occursIn (lowerStr s) (lowerStr c.email)

/-! ## Concrete fixtures -/

/-- The spec's example customer. -/
def ann : Customer :=
  { customer_id := 1
    email := "a@x.com"
    password_hash := "h"
    first_name := "Ann"
    last_name := "Zuberi"
    phone_number := "555"
    shipping_address := "12 Oak St" }

/-- A one-customer store holding `ann`. -/
def stZ : CustomerStore := { rows := [ann], nextId := 2 }

/-- A product fixture. -/
def prodA : Product :=
  { product_id := 1, name := "Alpha", sku := "S1", description := "d"
    price := 10, stock_quantity := 5 }

/-- A second product fixture with a distinct name and SKU. -/
def prodB : Product :=
  { product_id := 2, name := "Beta", sku := "S2", description := "d"
    price := 20, stock_quantity := 5 }

/-- A two-product store holding `prodA` and `prodB`. -/
def stP : ProductStore := { rows := [prodA, prodB], nextId := 3 }

/-- A partial product update that renames the product to `prodA`'s name. -/
def updNameAlpha : ProductUpdate :=
  { name := some "Alpha", sku := none, description := none
    price := none, stock_quantity := none }

/-- An empty order store. -/
def stO : OrderStore := { rows := [], nextId := 1 }

/-- An order-create payload. -/
def ordIn : OrderCreate := { customer_id := 7, line_items := "x" }

/-- An order store holding 101 rows. -/
def bigOrders : OrderStore :=
  { rows := (List.range 101).map
      (fun i => { order_id := i, customer_id := 0, line_items := "" })
    nextId := 101 }

/-- The all-absent partial customer update (an empty request payload). -/
def emptyCustomerUpdate : CustomerUpdate :=
  { email := none, first_name := none, last_name := none
    phone_number := none, shipping_address := none }

/-- The all-absent partial product update (an empty request payload). -/
def emptyProductUpdate : ProductUpdate :=
  { name := none, sku := none, description := none
    price := none, stock_quantity := none }

/-- A partial customer update carrying only a first name. -/
def onlyFirstName (x : String) : CustomerUpdate :=
  { email := none, first_name := some x, last_name := none
    phone_number := none, shipping_address := none }

/-- An attempt environment whose first three attempts fail with
connectivity errors and whose fourth succeeds. -/
def envW : Nat → Attempt := fun i => if i < 3 then .connFail else .ok

/-! ## General lemmas about the helper functions -/

theorem nodupBy_false_of_mem {α β : Type} [BEq β] (f : α → β) (l : List α)
    (a b : α) (hb : b ∈ l) (he : (f a == f b) = true) :
    nodupBy f (l ++ [a]) = false := by
  induction l with
  | nil => cases hb
  | cons c t ih =>
    rcases List.mem_cons.mp hb with h | h
    · subst h
      have hany : (t ++ [a]).any (fun x => f x == f b) = true := by
        refine List.any_eq_true.mpr ⟨a, by simp, he⟩
      simp [nodupBy, hany]
    · simp [nodupBy, ih h]

theorem any_beq_map {α β : Type} [BEq β] (f : α → β) (a : α) (t : List α) :
    ((t.map f).any fun b => b == f a) = t.any fun b => f b == f a := by
  induction t with
  | nil => rfl
  | cons x xs ih => simp [List.any_cons, ih]

theorem nodupBy_eq_nodup_map {α β : Type} [BEq β] (f : α → β) (l : List α) :
    nodupBy f l = nodupBy (fun x => x) (l.map f) := by
  induction l with
  | nil => rfl
  | cons a t ih =>
    show (!(t.any fun b => f b == f a) && nodupBy f t)
        = (!((t.map f).any fun b => b == f a) && nodupBy (fun x => x) (t.map f))
    rw [any_beq_map, ih]

theorem nodupBy_congr_map {α β : Type} [BEq β] (f : α → β) (l₁ l₂ : List α)
    (h : l₁.map f = l₂.map f) : nodupBy f l₁ = nodupBy f l₂ :=
  calc nodupBy f l₁ = nodupBy (fun x => x) (l₁.map f) := nodupBy_eq_nodup_map f l₁
    _ = nodupBy (fun x => x) (l₂.map f) := by rw [h]
    _ = nodupBy f l₂ := (nodupBy_eq_nodup_map f l₂).symm


theorem nodupBy_cons_elim {α : Type} (key : α → Nat) (h : α) (t : List α)
    (hn : nodupBy key (h :: t) = true) :
    (∀ b ∈ t, (key b == key h) = false) ∧ nodupBy key t = true := by
  have hsplit := Bool.and_eq_true_iff.mp hn
  refine ⟨fun b hb => ?_, hsplit.2⟩
  have hany : t.any (fun b => key b == key h) = false := by
    have := hsplit.1
    cases hx : t.any (fun b => key b == key h) <;> simp [hx] at this ⊢
  rw [List.any_eq_false] at hany
  simpa using hany b hb

theorem replace_self_of_find {α : Type} (key : α → Nat) (id : Nat) (c : α)
    (rows : List α)
    (hf : rows.find? (fun r => key r == id) = some c)
    (hn : nodupBy key rows = true) :
    rows.map (fun r => if key r == id then c else r) = rows := by
  induction rows with
  | nil => simp at hf
  | cons h t ih =>
    obtain ⟨hnone, hn'⟩ := nodupBy_cons_elim key h t hn
    by_cases hk : (key h == id) = true
    · have hc : h = c := by
        have := hf
        rw [List.find?_cons_of_pos (p := fun r => key r == id) t hk] at this
        exact Option.some.inj this
      have hid : key h = id := by simpa using hk
      have htail : t.map (fun r => if key r == id then c else r) = t := by
        have hpt : ∀ r ∈ t, (if key r == id then c else r) = r := by
          intro r hr
          have : (key r == id) = false := by rw [← hid]; exact hnone r hr
          simp [this]
        rw [List.map_congr_left hpt]
        exact List.map_id' t
      rw [List.map_cons, htail, if_pos hk, hc]
    · have hkf : (key h == id) = false := Bool.of_not_eq_true hk
      have hf' : t.find? (fun r => key r == id) = some c := by
        have := hf
        rw [List.find?_cons_of_neg (p := fun r => key r == id) t (by simp [hkf])] at this
        exact this
      rw [List.map_cons, if_neg (by simp [hkf]), ih hf' hn']

theorem find?_eraseP_none {α : Type} (key : α → Nat) (id : Nat)
    (rows : List α) (hn : nodupBy key rows = true) :
    (rows.eraseP (fun r => key r == id)).find? (fun r => key r == id) = none := by
  induction rows with
  | nil => simp
  | cons h t ih =>
    obtain ⟨hnone, hn'⟩ := nodupBy_cons_elim key h t hn
    by_cases hk : (key h == id) = true
    · have hid : key h = id := by simpa using hk
      rw [List.eraseP_cons_of_pos (p := fun r => key r == id) hk]
      refine List.find?_eq_none.mpr (fun x hx => ?_)
      have : (key x == id) = false := by rw [← hid]; exact hnone x hx
      simp [this]
    · have hkf : (key h == id) = false := Bool.of_not_eq_true hk
      rw [List.eraseP_cons_of_neg (p := fun r => key r == id) (by simp [hkf])]
      rw [List.find?_cons_of_neg (p := fun r => key r == id) (List.eraseP (fun r => key r == id) t) (by simp [hkf])]
      exact ih hn'

theorem map_field_replace {α γ : Type} (key : α → Nat) (g : α → γ) (id : Nat)
    (c c' : α) (rows : List α)
    (hf : rows.find? (fun r => key r == id) = some c)
    (hn : nodupBy key rows = true) (hg : g c' = g c) :
    (rows.map (fun r => if key r == id then c' else r)).map g = rows.map g := by
  induction rows with
  | nil => simp at hf
  | cons h t ih =>
    obtain ⟨hnone, hn'⟩ := nodupBy_cons_elim key h t hn
    by_cases hk : (key h == id) = true
    · have hc : h = c := by
        have := hf
        rw [List.find?_cons_of_pos (p := fun r => key r == id) t hk] at this
        exact Option.some.inj this
      have hid : key h = id := by simpa using hk
      have htail : t.map (fun r => if key r == id then c' else r) = t := by
        have hpt : ∀ r ∈ t, (if key r == id then c' else r) = r := by
          intro r hr
          have : (key r == id) = false := by rw [← hid]; exact hnone r hr
          simp [this]
        rw [List.map_congr_left hpt]
        exact List.map_id' t
      rw [List.map_cons, htail, if_pos hk, List.map_cons, List.map_cons, hc, hg]
    · have hkf : (key h == id) = false := Bool.of_not_eq_true hk
      have hf' : t.find? (fun r => key r == id) = some c := by
        have := hf
        rw [List.find?_cons_of_neg (p := fun r => key r == id) t (by simp [hkf])] at this
        exact this
      rw [List.map_cons, if_neg (by simp [hkf]), List.map_cons, List.map_cons,
        ih hf' hn']

theorem any_congr_list {α : Type} (f g : α → Bool) (l : List α)
    (h : ∀ x ∈ l, f x = g x) : l.any f = l.any g := by
  induction l with
  | nil => rfl
  | cons a t ih =>
    simp only [List.any_cons]
    rw [h a (List.mem_cons_self a t), ih (fun x hx => h x (List.mem_cons_of_mem a hx))]

theorem likeMatch_pct (ps h : List Char) :
    likeMatch ('%' :: ps) h = (sufs h).any (fun t => likeMatch ps t) := by
  simp [likeMatch]

theorem likeMatch_lit_cons (a : Char) (ps h : List Char) (ha : ¬ a = '%') :
    likeMatch (a :: ps) h
      = (match h with
          | [] => false
          | c :: t => (if a = '_' then true else a == c) && likeMatch ps t) := by
  conv =>
    lhs
    rw [likeMatch.eq_def]
  simp [ha]

theorem likeMatch_pct_only (h : List Char) : likeMatch ['%'] h = true := by
  induction h with
  | nil => rfl
  | cons c t ih =>
    rw [likeMatch_pct] at ih ⊢
    simp only [sufs, List.any_cons, ih]
    simp [likeMatch]

theorem likeMatch_lit_pct (p : List Char)
    (hwf : ∀ c ∈ p, ¬ c = '%' ∧ ¬ c = '_') :
    ∀ h, likeMatch (p ++ ['%']) h = leadsWith p h := by
  induction p with
  | nil => intro h; simp [likeMatch_pct_only, leadsWith]
  | cons a as ih =>
    intro h
    have ha := hwf a (List.mem_cons_self a as)
    rw [List.cons_append, likeMatch_lit_cons a _ h ha.1]
    cases h with
    | nil => simp [leadsWith]
    | cons c t =>
      have hrec := ih (fun c hc => hwf c (List.mem_cons_of_mem a hc)) t
      simp [leadsWith, ha.2, hrec]

theorem sufs_any_leadsWith (p : List Char) :
    ∀ h, (sufs h).any (fun t => leadsWith p t) = occursIn p h := by
  intro h
  induction h with
  | nil => simp [sufs, occursIn]
  | cons c t ih => simp [sufs, occursIn, List.any_cons, ih]

theorem likeMatch_substr (p : List Char)
    (hwf : ∀ c ∈ p, ¬ c = '%' ∧ ¬ c = '_') :
    ∀ h, likeMatch ('%' :: (p ++ ['%'])) h = occursIn p h := by
  intro h
  rw [likeMatch_pct]
  rw [any_congr_list _ (fun t => leadsWith p t) _
    (fun t _ => likeMatch_lit_pct p hwf t)]
  exact sufs_any_leadsWith p h

theorem occursIn_nil_left (l : List Char) : occursIn [] l = true := by
  cases l <;> simp [occursIn, leadsWith]

theorem lowerStr_append (a b : String) :
    lowerStr (a ++ b) = lowerStr a ++ lowerStr b := by
  simp [lowerStr, String.data_append]

theorem lowerStr_pct : lowerStr "%" = ['%'] := by decide

theorem ilike_pct_pattern (f s : String)
    (hwf : ∀ c ∈ lowerStr s, ¬ c = '%' ∧ ¬ c = '_') :
    ilike f ("%" ++ s ++ "%") = occursIn (lowerStr s) (lowerStr f) := by
  show likeMatch (lowerStr ("%" ++ s ++ "%")) (lowerStr f) = _
  rw [lowerStr_append, lowerStr_append, lowerStr_pct]
  show likeMatch ('%' :: (lowerStr s ++ ['%'])) (lowerStr f) = _
  exact likeMatch_substr (lowerStr s) hwf (lowerStr f)

theorem startupIter_conn (env : Nat → Attempt) (b : Bool) :
    ∀ (k fuel i sleeps : Nat), k ≤ fuel →
      (∀ j, j < k → env (i + j) = .connFail) →
      startupIter env b fuel i sleeps
        = startupIter env b (fuel - k) (i + k) (sleeps + k) := by
  intro k
  induction k with
  | zero => intro fuel i sleeps _ _; simp
  | succ k ih =>
    intro fuel i sleeps hk hconn
    cases fuel with
    | zero => exact absurd hk (by omega)
    | succ fuel =>
      have h0 : env i = .connFail := by
        have := hconn 0 (Nat.succ_pos k)
        simpa using this
      have hstep : startupIter env b (fuel + 1) i sleeps
          = startupIter env b fuel (i + 1) (sleeps + 1) := by
        rw [startupIter, h0]
      have hconn1 : ∀ j, j < k → env (i + 1 + j) = .connFail := by
        intro j hj
        have := hconn (j + 1) (Nat.succ_lt_succ hj)
        rwa [show i + (j + 1) = i + 1 + j by omega] at this
      have hk1 : k ≤ fuel := by omega
      rw [hstep, ih fuel (i + 1) (sleeps + 1) hk1 hconn1,
        show fuel - k = fuel + 1 - (k + 1) by omega,
        show i + 1 + k = i + (k + 1) by omega,
        show sleeps + 1 + k = sleeps + (k + 1) by omega]

/-! ## Commit inversion lemmas -/

theorem commitCustomers_ok_inv {pending st' : CustomerStore} {fault : Bool}
    (h : commitCustomers pending fault = .ok st') :
    st' = pending ∧ uniqueEmailsOk pending.rows = true ∧ fault = false := by
  unfold commitCustomers at h
  cases hu : uniqueEmailsOk pending.rows <;> rw [hu] at h
  · simp at h
  · cases fault with
    | false =>
      simp at h
      exact ⟨h.symm, rfl, rfl⟩
    | true => simp at h

theorem commitProducts_ok_inv {pending st' : ProductStore} {fault : Bool}
    (h : commitProducts pending fault = .ok st') :
    st' = pending ∧ productConstraintOk pending.rows = true ∧ fault = false := by
  unfold commitProducts at h
  cases hu : productConstraintOk pending.rows <;> rw [hu] at h
  · simp at h
  · cases fault with
    | false =>
      simp at h
      exact ⟨h.symm, rfl, rfl⟩
    | true => simp at h

theorem commitOrders_ok_inv {pending st' : OrderStore} {fault : Bool}
    (h : commitOrders pending fault = .ok st') :
    st' = pending ∧ fault = false := by
  unfold commitOrders at h
  cases fault with
  | false =>
    simp at h
    exact ⟨h.symm, rfl⟩
  | true => simp at h

/-! ## Claims -/

/-- C1: creating a customer whose email equals the email of an existing row
fails with 400 Conflict carrying the field-specific message and leaves the
store unchanged (no duplicate row is created); moreover, after every
committed (successful) create, update or delete, email uniqueness holds in
the resulting store. -/
theorem create_customer_conflict_and_uniqueness :
    (∀ (st : CustomerStore) (inp : CustomerCreate) (fault : Bool) (c : Customer),
      c ∈ st.rows → c.email = inp.email →
      create_customer st inp fault
        = Outcome.httpError 400 "Email already registered." st) ∧
    (∀ (st : CustomerStore) (inp : CustomerCreate) (fault : Bool)
        (b : Customer) (st' : CustomerStore),
      create_customer st inp fault = Outcome.ok 201 b st' →
      uniqueEmailsOk st'.rows = true) ∧
    (∀ (st : CustomerStore) (id : Nat) (u : CustomerUpdate) (fault : Bool)
        (b : Customer) (st' : CustomerStore),
      update_customer st id u fault = Outcome.ok 200 b st' →
      uniqueEmailsOk st'.rows = true) ∧
    (∀ (st : CustomerStore) (id : Nat) (fault : Bool) (st' : CustomerStore),
      delete_customer st id fault = Outcome.ok 204 () st' →
      uniqueEmailsOk st'.rows = true) := by
  refine ⟨?_, ?_, ?_, ?_⟩
  · intro st inp fault c hc he
    have hdup : uniqueEmailsOk (st.rows ++ [newCustomerRow st inp]) = false := by
      refine nodupBy_false_of_mem Customer.email st.rows (newCustomerRow st inp) c hc ?_
      simp [newCustomerRow, he]
    simp [create_customer, commitCustomers, hdup]
  · intro st inp fault b st' h
    cases hcm : commitCustomers
        { rows := st.rows ++ [newCustomerRow st inp], nextId := st.nextId + 1 } fault with
    | ok stc =>
      simp [create_customer, hcm] at h
      obtain ⟨hp, hu, _⟩ := commitCustomers_ok_inv hcm
      rw [h.2.symm, hp]
      exact hu
    | error e =>
      cases e <;> simp [create_customer, hcm] at h
  · intro st id u fault b st' h
    unfold update_customer at h
    cases hfind : st.rows.find? (fun r => r.customer_id == id) with
    | none => simp [update_customer, delete_customer, hfind] at h
    | some c =>
      cases hcm : commitCustomers
          { st with rows := replaceCustomerById st.rows id (applyCustomerUpdate c u) } fault with
      | ok stc =>
        simp [update_customer, hfind, hcm] at h
        obtain ⟨hp, hu, _⟩ := commitCustomers_ok_inv hcm
        rw [h.2.symm, hp]
        exact hu
      | error e =>
        cases e <;> simp [update_customer, hfind, hcm] at h
  · intro st id fault st' h
    unfold delete_customer at h
    cases hfind : st.rows.find? (fun r => r.customer_id == id) with
    | none => simp [update_customer, delete_customer, hfind] at h
    | some c =>
      cases hcm : commitCustomers
          { st with rows := st.rows.eraseP (fun r => r.customer_id == id) } fault with
      | ok stc =>
        simp [delete_customer, hfind, hcm] at h
        obtain ⟨hp, hu, _⟩ := commitCustomers_ok_inv hcm
        rw [h.symm, hp]
        exact hu
      | error e =>
        simp [delete_customer, hfind, hcm] at h

/-- C1 witness: creating a second customer with `ann`'s email "a@x.com" in
the one-customer store `stZ` yields 400 Conflict with the store unchanged. -/
theorem create_customer_conflict_and_uniqueness_witness :
    create_customer stZ
      { email := "a@x.com", password := "p", first_name := "Bo", last_name := "Li"
        phone_number := "1", shipping_address := "2" } false
      = Outcome.httpError 400 "Email already registered." stZ :=
  create_customer_conflict_and_uniqueness.1 stZ _ false ann
    (by simp [stZ]) (by rfl)

/-- C2 counterexample: in the order service a storage failure at the
`POST /orders/` commit is not surfaced as a handled InternalError
response: the handler has no try/except, so no HTTP error is produced and
the failure propagates unhandled (and no rollback call is made). -/
theorem create_order_fault_not_handled :
    create_order stO ordIn true = Outcome.unhandled DbError.operational stO ∧
    isHttpError (create_order stO ordIn true) = false := by
  constructor <;> rfl

/-- C2 (amended): with a storage failure injected at commit time, every
customer- and product-service mutating handler catches the failure, rolls
back (the store carried by the error outcome is the original store) and
maps it to an HTTP error response — 400 for an integrity violation where
the handler has a dedicated branch (customer create/update, product
create), 500 otherwise — while the order service's create and delete
handlers have no error wrapping at all: the failure propagates unhandled
(delete still answers 404 first when the id is absent). -/
theorem mutating_ops_rollback_and_mapping :
    (∀ (st : CustomerStore) (inp : CustomerCreate),
      create_customer st inp true
          = Outcome.httpError 400 "Email already registered." st ∨
      create_customer st inp true
          = Outcome.httpError 500 "Could not create customer." st) ∧
    (∀ (st : CustomerStore) (id : Nat) (u : CustomerUpdate),
      update_customer st id u true
          = Outcome.httpError 404 "Customer not found" st ∨
      update_customer st id u true
          = Outcome.httpError 400 "Updated email already exists" st ∨
      update_customer st id u true
          = Outcome.httpError 500 "Could not update customer" st) ∧
    (∀ (st : CustomerStore) (id : Nat),
      delete_customer st id true
          = Outcome.httpError 404 "Customer not found" st ∨
      delete_customer st id true
          = Outcome.httpError 500 "Could not delete customer" st) ∧
    (∀ (st : ProductStore) (p : ProductCreate),
      create_product st p true
          = Outcome.httpError 400 "Product already exists" st ∨
      create_product st p true
          = Outcome.httpError 500 "Could not create product" st) ∧
    (∀ (st : ProductStore) (id : Nat) (u : ProductUpdate),
      update_product st id u true
          = Outcome.httpError 404 "Product not found" st ∨
      update_product st id u true
          = Outcome.httpError 500 "Could not update product" st) ∧
    (∀ (st : ProductStore) (id : Nat),
      delete_product st id true
          = Outcome.httpError 404 "Product not found" st ∨
      delete_product st id true
          = Outcome.httpError 500 "Could not delete product" st) ∧
    (∀ (st : OrderStore) (o : OrderCreate),
      create_order st o true = Outcome.unhandled DbError.operational st) ∧
    (∀ (st : OrderStore) (id : Nat),
      delete_order st id true = Outcome.httpError 404 "Order not found" st ∨
      delete_order st id true = Outcome.unhandled DbError.operational st) := by
  refine ⟨?_, ?_, ?_, ?_, ?_, ?_, ?_, ?_⟩
  · intro st inp
    cases hu : uniqueEmailsOk (st.rows ++ [newCustomerRow st inp])
    · left
      simp [create_customer, commitCustomers, hu]
    · right
      simp [create_customer, commitCustomers, hu]
  · intro st id u
    cases hfind : st.rows.find? (fun r => r.customer_id == id) with
    | none =>
      left
      simp [update_customer, hfind]
    | some c =>
      cases hu : uniqueEmailsOk
          (replaceCustomerById st.rows id (applyCustomerUpdate c u))
      · right; left
        simp [update_customer, hfind, commitCustomers, hu]
      · right; right
        simp [update_customer, hfind, commitCustomers, hu]
  · intro st id
    cases hfind : st.rows.find? (fun r => r.customer_id == id) with
    | none =>
      left
      simp [delete_customer, hfind]
    | some c =>
      right
      cases hu : uniqueEmailsOk (st.rows.eraseP (fun r => r.customer_id == id)) <;>
        simp [delete_customer, hfind, commitCustomers, hu]
  · intro st p
    cases hu : productConstraintOk (st.rows ++ [newProductRow st p])
    · left
      simp [create_product, commitProducts, hu]
    · right
      simp [create_product, commitProducts, hu]
  · intro st id u
    cases hfind : st.rows.find? (fun r => r.product_id == id) with
    | none =>
      left
      simp [update_product, hfind]
    | some p =>
      right
      cases hu : productConstraintOk
          (replaceProductById st.rows id (applyProductUpdate p u)) <;>
        simp [update_product, hfind, commitProducts, hu]
  · intro st id
    cases hfind : st.rows.find? (fun r => r.product_id == id) with
    | none =>
      left
      simp [delete_product, hfind]
    | some p =>
      right
      cases hu : productConstraintOk (st.rows.eraseP (fun r => r.product_id == id)) <;>
        simp [delete_product, hfind, commitProducts, hu]
  · intro st o
    simp [create_order, commitOrders]
  · intro st id
    cases hfind : st.rows.find? (fun r => r.order_id == id) with
    | none =>
      left
      simp [delete_order, hfind]
    | some o =>
      right
      simp [delete_order, hfind, commitOrders]

/-- Default `skip` query value of the customer and product list
endpoints. -/
def defaultSkip : Nat := 0

/-- Default `limit` query value of the customer and product list
endpoints. -/
def defaultLimit : Nat := 100

/-- A five-customer store. -/
def fiveCustomers : CustomerStore :=
  { rows := (List.range 5).map (fun i =>
      { customer_id := i + 1
        email := "e" ++ toString i
        password_hash := "h"
        first_name := "F"
        last_name := "L"
        phone_number := "p"
        shipping_address := "a" })
    nextId := 6 }

/-- C3 counterexample: the order service's list endpoint takes no limit
parameter and returns every row: on a 101-row store it returns 101 rows,
not at most the claimed default limit of 100. -/
theorem list_orders_unbounded :
    ¬ (list_orders bigOrders).length ≤ 100 := by
  have h : (list_orders bigOrders).length = 101 := by
    simp [list_orders, bigOrders]
  omega

/-- C3 (amended): the customer and product list endpoints return the
stored rows in insertion order, offset by skip and capped at limit
(defaults skip 0 and limit 100), so over at least 5 rows, skip 0 and
limit 2 return exactly the first two rows; the order list endpoint takes
no skip or limit parameter and returns every row in insertion order. -/
theorem list_pagination :
    (∀ (st : CustomerStore) (skip limit : Nat),
      (list_customers st skip limit none).length
          = min limit (st.rows.length - skip) ∧
      (list_customers st skip limit none).Sublist st.rows) ∧
    (∀ (st : ProductStore) (skip limit : Nat),
      (list_products st skip limit).length = min limit (st.rows.length - skip) ∧
      (list_products st skip limit).Sublist st.rows) ∧
    (∀ st : OrderStore, list_orders st = st.rows) ∧
    (∀ st : CustomerStore, 5 ≤ st.rows.length →
      (list_customers st defaultSkip 2 none).length = 2 ∧
      list_customers st defaultSkip 2 none = st.rows.take 2) ∧
    defaultSkip = 0 ∧ defaultLimit = 100 := by
  refine ⟨?_, ?_, ?_, ?_, rfl, rfl⟩
  · intro st skip limit
    refine ⟨?_, ?_⟩
    · simp [list_customers]
    · show ((st.rows.drop skip).take limit).Sublist st.rows
      exact (List.take_sublist _ _).trans (List.drop_sublist _ _)
  · intro st skip limit
    refine ⟨?_, ?_⟩
    · simp [list_products]
    · exact (List.take_sublist _ _).trans (List.drop_sublist _ _)
  · intro st
    rfl
  · intro st hlen
    constructor
    · simp [list_customers, defaultSkip]
      omega
    · show ((st.rows.drop 0).take 2) = st.rows.take 2
      rw [List.drop_zero]

/-- C3 witness: on a concrete 5-row store, skip 0 and limit 2 return
exactly the first two rows. -/
theorem list_pagination_witness :
    (list_customers fiveCustomers defaultSkip 2 none).length = 2 ∧
    list_customers fiveCustomers defaultSkip 2 none = fiveCustomers.rows.take 2 :=
  list_pagination.2.2.2.1 fiveCustomers (by simp [fiveCustomers])

/-- C5: get, update and delete on an id with no matching row each return
404 NotFound with the store unchanged, in all three services (update only
where it exists); and deleting an existing customer id, then getting that
same id, returns 404. -/
theorem notfound_semantics :
    (∀ (st : CustomerStore) (id : Nat),
      st.rows.find? (fun r => r.customer_id == id) = none →
      get_customer st id = Outcome.httpError 404 "Customer not found" st ∧
      (∀ (u : CustomerUpdate) (fault : Bool),
        update_customer st id u fault
          = Outcome.httpError 404 "Customer not found" st) ∧
      (∀ fault : Bool,
        delete_customer st id fault
          = Outcome.httpError 404 "Customer not found" st)) ∧
    (∀ (st : ProductStore) (id : Nat),
      st.rows.find? (fun r => r.product_id == id) = none →
      get_product st id = Outcome.httpError 404 "Product not found" st ∧
      (∀ (u : ProductUpdate) (fault : Bool),
        update_product st id u fault
          = Outcome.httpError 404 "Product not found" st) ∧
      (∀ fault : Bool,
        delete_product st id fault
          = Outcome.httpError 404 "Product not found" st)) ∧
    (∀ (st : OrderStore) (id : Nat),
      st.rows.find? (fun r => r.order_id == id) = none →
      get_order st id = Outcome.httpError 404 "Order not found" st ∧
      (∀ fault : Bool,
        delete_order st id fault = Outcome.httpError 404 "Order not found" st)) ∧
    (∀ (st : CustomerStore) (id : Nat) (st' : CustomerStore),
      nodupBy Customer.customer_id st.rows = true →
      delete_customer st id false = Outcome.ok 204 () st' →
      get_customer st' id = Outcome.httpError 404 "Customer not found" st') := by
  refine ⟨?_, ?_, ?_, ?_⟩
  · intro st id hfind
    exact ⟨by simp [get_customer, hfind],
      fun u fault => by simp [update_customer, hfind],
      fun fault => by simp [delete_customer, hfind]⟩
  · intro st id hfind
    exact ⟨by simp [get_product, hfind],
      fun u fault => by simp [update_product, hfind],
      fun fault => by simp [delete_product, hfind]⟩
  · intro st id hfind
    exact ⟨by simp [get_order, hfind],
      fun fault => by simp [delete_order, hfind]⟩
  · intro st id st' hnid h
    cases hfind : st.rows.find? (fun r => r.customer_id == id) with
    | none => simp [delete_customer, hfind] at h
    | some c =>
      cases hcm : commitCustomers
          { st with rows := st.rows.eraseP (fun r => r.customer_id == id) } false with
      | ok stc =>
        simp [delete_customer, hfind, hcm] at h
        obtain ⟨hp, _, _⟩ := commitCustomers_ok_inv hcm
        have hrows : st'.rows = st.rows.eraseP (fun r => r.customer_id == id) := by
          rw [h.symm, hp]
        have hnone := find?_eraseP_none Customer.customer_id id st.rows hnid
        rw [← hrows] at hnone
        simp [get_customer, hnone]
      | error e =>
        simp [delete_customer, hfind, hcm] at h

/-- C5 witness: on an empty customer store, getting id 999999 returns 404;
and after deleting `ann` (id 1) from `stZ`, getting id 1 returns 404. -/
theorem notfound_semantics_witness :
    get_customer { rows := [], nextId := 1 } 999999
      = Outcome.httpError 404 "Customer not found" { rows := [], nextId := 1 } ∧
    get_customer { rows := [], nextId := 2 } 1
      = Outcome.httpError 404 "Customer not found" { rows := [], nextId := 2 } :=
  ⟨(notfound_semantics.1 { rows := [], nextId := 1 } 999999 (by rfl)).1,
   notfound_semantics.2.2.2 stZ 1 { rows := [], nextId := 2 }
     (by rfl) (by rfl)⟩

/-- C8: the order service exposes no update operation: its route table has
no PUT (or PATCH) route, and none of its operations modifies the fields of
an existing row — create only appends a fresh row, get and list leave the
store untouched, and a successful delete only removes the first row
carrying the target id, every surviving row being a row of the original
store. -/
theorem order_no_update :
    (∀ r ∈ orderServiceRoutes, r.1 ≠ Method.PUT ∧ r.1 ≠ Method.PATCH) ∧
    (∀ (st : OrderStore) (o : OrderCreate) (fault : Bool) (b : Order)
        (st' : OrderStore),
      create_order st o fault = Outcome.ok 201 b st' →
      st'.rows = st.rows ++ [newOrderRow st o]) ∧
    (∀ (st : OrderStore) (id : Nat), storeOf (get_order st id) = st) ∧
    (∀ st : OrderStore, list_orders st = st.rows) ∧
    (∀ (st : OrderStore) (id : Nat) (fault : Bool) (st' : OrderStore),
      delete_order st id fault = Outcome.ok 204 () st' →
      st'.rows = st.rows.eraseP (fun r => r.order_id == id) ∧
      ∀ r ∈ st'.rows, r ∈ st.rows) := by
  refine ⟨?_, ?_, ?_, ?_, ?_⟩
  · intro r hr
    fin_cases hr <;> exact ⟨by simp, by simp⟩
  · intro st o fault b st' h
    cases hcm : commitOrders
        { rows := st.rows ++ [newOrderRow st o], nextId := st.nextId + 1 } fault with
    | ok stc =>
      simp [create_order, hcm] at h
      obtain ⟨hp, _⟩ := commitOrders_ok_inv hcm
      rw [h.2.symm, hp]
    | error e =>
      simp [create_order, hcm] at h
  · intro st id
    cases hfind : st.rows.find? (fun r => r.order_id == id) with
    | none => simp [get_order, hfind, storeOf]
    | some o => simp [get_order, hfind, storeOf]
  · intro st
    rfl
  · intro st id fault st' h
    cases hfind : st.rows.find? (fun r => r.order_id == id) with
    | none => simp [delete_order, hfind] at h
    | some o =>
      cases hcm : commitOrders
          { st with rows := st.rows.eraseP (fun r => r.order_id == id) } fault with
      | ok stc =>
        simp [delete_order, hfind, hcm] at h
        obtain ⟨hp, _⟩ := commitOrders_ok_inv hcm
        have hrows : st'.rows = st.rows.eraseP (fun r => r.order_id == id) := by
          rw [h.symm, hp]
        refine ⟨hrows, fun r hr => ?_⟩
        rw [hrows] at hr
        exact List.mem_of_mem_eraseP hr
      | error e =>
        simp [delete_order, hfind, hcm] at h

/-- C8 witness: the list route is not a PUT, and a concrete successful
create appends exactly the new row to the store. -/
theorem order_no_update_witness :
    ((Method.GET, "/orders/") : Method × String).1 ≠ Method.PUT ∧
    ({ rows := [newOrderRow stO ordIn], nextId := 2 } : OrderStore).rows
      = stO.rows ++ [newOrderRow stO ordIn] :=
  ⟨(order_no_update.1 (Method.GET, "/orders/") (by simp [orderServiceRoutes])).1,
   order_no_update.2.1 stO ordIn false (newOrderRow stO ordIn)
     { rows := [newOrderRow stO ordIn], nextId := 2 } (by rfl)⟩

/-- C10: an update whose partial payload sets no fields at all succeeds
with HTTP 200, returns the stored entity unchanged, and leaves the store
unchanged, for both customers and products. -/
theorem empty_update_noop :
    (∀ (st : CustomerStore) (id : Nat) (c : Customer),
      st.rows.find? (fun r => r.customer_id == id) = some c →
      nodupBy Customer.customer_id st.rows = true →
      uniqueEmailsOk st.rows = true →
      update_customer st id emptyCustomerUpdate false = Outcome.ok 200 c st) ∧
    (∀ (st : ProductStore) (id : Nat) (p : Product),
      st.rows.find? (fun r => r.product_id == id) = some p →
      nodupBy Product.product_id st.rows = true →
      productConstraintOk st.rows = true →
      update_product st id emptyProductUpdate false = Outcome.ok 200 p st) := by
  constructor
  · intro st id c hfind hnid hue
    have hrep : replaceCustomerById st.rows id
        (applyCustomerUpdate c emptyCustomerUpdate) = st.rows :=
      replace_self_of_find Customer.customer_id id c st.rows hfind hnid
    have hcm : commitCustomers
        { st with rows := (replaceCustomerById st.rows id
            (applyCustomerUpdate c emptyCustomerUpdate)) } false = .ok st := by
      rw [hrep]
      simp [commitCustomers, hue]
    simp only [update_customer, hfind, hcm]
    rfl
  · intro st id p hfind hnid hpc
    have hrep : replaceProductById st.rows id
        (applyProductUpdate p emptyProductUpdate) = st.rows :=
      replace_self_of_find Product.product_id id p st.rows hfind hnid
    have hcm : commitProducts
        { st with rows := (replaceProductById st.rows id
            (applyProductUpdate p emptyProductUpdate)) } false = .ok st := by
      rw [hrep]
      simp [commitProducts, hpc]
    simp only [update_product, hfind, hcm]
    rfl

/-- C10 witness: the empty update on `ann` in `stZ` and on `prodA` in
`stP` returns 200 with the entity and the store unchanged. -/
theorem empty_update_noop_witness :
    update_customer stZ 1 emptyCustomerUpdate false = Outcome.ok 200 ann stZ ∧
    update_product stP 1 emptyProductUpdate false = Outcome.ok 200 prodA stP :=
  ⟨empty_update_noop.1 stZ 1 ann (by rfl) (by rfl) (by rfl),
   empty_update_noop.2 stP 1 prodA (by decide) (by decide) (by decide)⟩

/-- A second customer fixture with a distinct id and email. -/
def bob : Customer :=
  { customer_id := 2
    email := "b@x.com"
    password_hash := "h2"
    first_name := "Bob"
    last_name := "Ng"
    phone_number := "777"
    shipping_address := "3 Elm St" }

/-- A two-customer store holding `ann` and `bob`. -/
def stZ2 : CustomerStore := { rows := [ann, bob], nextId := 3 }

/-- A partial customer update that sets only the email, to `ann`'s
email. -/
def updEmailA : CustomerUpdate :=
  { email := some "a@x.com", first_name := none, last_name := none
    phone_number := none, shipping_address := none }

/-- C4: partial updates apply exactly the fields present in the payload:
every omitted field keeps its stored value (exclude-unset), field by field
for customers and products; and a customer update carrying only a first
name succeeds, returning the entity with only the first name changed
(email, last name, phone number and shipping address untouched) and
replacing only that row in the store. -/
theorem partial_update_frame :
    (∀ (c : Customer) (u : CustomerUpdate),
      (u.email = none → (applyCustomerUpdate c u).email = c.email) ∧
      (u.first_name = none →
        (applyCustomerUpdate c u).first_name = c.first_name) ∧
      (u.last_name = none → (applyCustomerUpdate c u).last_name = c.last_name) ∧
      (u.phone_number = none →
        (applyCustomerUpdate c u).phone_number = c.phone_number) ∧
      (u.shipping_address = none →
        (applyCustomerUpdate c u).shipping_address = c.shipping_address) ∧
      (applyCustomerUpdate c u).customer_id = c.customer_id ∧
      (applyCustomerUpdate c u).password_hash = c.password_hash) ∧
    (∀ (p : Product) (u : ProductUpdate),
      (u.name = none → (applyProductUpdate p u).name = p.name) ∧
      (u.sku = none → (applyProductUpdate p u).sku = p.sku) ∧
      (u.description = none →
        (applyProductUpdate p u).description = p.description) ∧
      (u.price = none → (applyProductUpdate p u).price = p.price) ∧
      (u.stock_quantity = none →
        (applyProductUpdate p u).stock_quantity = p.stock_quantity) ∧
      (applyProductUpdate p u).product_id = p.product_id) ∧
    (∀ (st : CustomerStore) (id : Nat) (c : Customer) (x : String),
      st.rows.find? (fun r => r.customer_id == id) = some c →
      nodupBy Customer.customer_id st.rows = true →
      uniqueEmailsOk st.rows = true →
      update_customer st id (onlyFirstName x) false
        = Outcome.ok 200 { c with first_name := x }
            { st with rows := (replaceCustomerById st.rows id
                { c with first_name := x }) }) := by
  refine ⟨?_, ?_, ?_⟩
  · intro c u
    refine ⟨fun h => ?_, fun h => ?_, fun h => ?_, fun h => ?_, fun h => ?_, rfl, rfl⟩ <;>
      simp [applyCustomerUpdate, h]
  · intro p u
    refine ⟨fun h => ?_, fun h => ?_, fun h => ?_, fun h => ?_, fun h => ?_, rfl⟩ <;>
      simp [applyProductUpdate, h]
  · intro st id c x hfind hnid hue
    have hmail : ((replaceCustomerById st.rows id
          (applyCustomerUpdate c (onlyFirstName x))).map Customer.email)
        = st.rows.map Customer.email :=
      map_field_replace Customer.customer_id Customer.email id c
        (applyCustomerUpdate c (onlyFirstName x)) st.rows hfind hnid rfl
    have huep : uniqueEmailsOk (replaceCustomerById st.rows id
        (applyCustomerUpdate c (onlyFirstName x))) = true := by
      unfold uniqueEmailsOk
      rw [nodupBy_congr_map Customer.email _ _ hmail]
      exact hue
    have hcm : commitCustomers
        { st with rows := (replaceCustomerById st.rows id
            (applyCustomerUpdate c (onlyFirstName x))) } false
        = .ok { st with rows := (replaceCustomerById st.rows id
            (applyCustomerUpdate c (onlyFirstName x))) } := by
      simp [commitCustomers, huep]
    simp only [update_customer, hfind, hcm]
    rfl

/-- `ann` with the first name replaced by "X". -/
def annX : Customer :=
  { customer_id := 1
    email := "a@x.com"
    password_hash := "h"
    first_name := "X"
    last_name := "Zuberi"
    phone_number := "555"
    shipping_address := "12 Oak St" }

/-- C4 witness: updating `ann` (id 1) in `stZ` with only a first name "X"
returns 200 with only the first name changed. -/
theorem partial_update_frame_witness :
    update_customer stZ 1 (onlyFirstName "X") false
      = Outcome.ok 200 annX { rows := [annX], nextId := 2 } := by
  have h := partial_update_frame.2.2 stZ 1 ann "X" (by rfl) (by rfl) (by rfl)
  simpa [stZ, ann, annX, replaceCustomerById] using h

/-- C7 counterexample: renaming `prodB` (id 2) to `prodA`'s name "Alpha"
violates the product uniqueness constraint at commit time, and
`PUT /products/2` answers 500 InternalError, not the claimed 400
Conflict. -/
theorem update_product_conflict_is_500 :
    update_product stP 2 updNameAlpha false
      = Outcome.httpError 500 "Could not update product" stP ∧
    statusOf (update_product stP 2 updNameAlpha false) ≠ some 400 := by
  constructor
  · decide
  · decide

/-- C7 (amended): a customer update whose committed state would violate
email uniqueness fails with 400 Conflict, but a product update whose
committed state would violate the product uniqueness constraint fails with
500 InternalError, because the product update handler catches every commit
failure with its single generic branch; both roll back, leaving the store
unchanged. -/
theorem update_conflict_mapping :
    (∀ (st : CustomerStore) (id : Nat) (u : CustomerUpdate) (c : Customer)
        (fault : Bool),
      st.rows.find? (fun r => r.customer_id == id) = some c →
      uniqueEmailsOk (replaceCustomerById st.rows id (applyCustomerUpdate c u))
          = false →
      update_customer st id u fault
        = Outcome.httpError 400 "Updated email already exists" st) ∧
    (∀ (st : ProductStore) (id : Nat) (u : ProductUpdate) (p : Product)
        (fault : Bool),
      st.rows.find? (fun r => r.product_id == id) = some p →
      productConstraintOk (replaceProductById st.rows id (applyProductUpdate p u))
          = false →
      update_product st id u fault
        = Outcome.httpError 500 "Could not update product" st) := by
  constructor
  · intro st id u c fault hfind hviol
    have hcm : commitCustomers
        { st with rows := (replaceCustomerById st.rows id
            (applyCustomerUpdate c u)) } fault = .error .integrity := by
      simp [commitCustomers, hviol]
    simp only [update_customer, hfind, hcm]
  · intro st id u p fault hfind hviol
    have hcm : commitProducts
        { st with rows := (replaceProductById st.rows id
            (applyProductUpdate p u)) } fault = .error .integrity := by
      simp [commitProducts, hviol]
    simp only [update_product, hfind, hcm]

/-- C7 witness: updating `bob`'s email to `ann`'s email yields 400 in the
customer service, while the analogous name collision on products yields
500 in the product service. -/
theorem update_conflict_mapping_witness :
    update_customer stZ2 2 updEmailA false
      = Outcome.httpError 400 "Updated email already exists" stZ2 ∧
    update_product stP 2 updNameAlpha false
      = Outcome.httpError 500 "Could not update product" stP :=
  ⟨update_conflict_mapping.1 stZ2 2 updEmailA bob false (by decide) (by decide),
   update_conflict_mapping.2 stP 2 updNameAlpha prodB false (by decide)
     (by decide)⟩

/-- C6 counterexample: the customer search string is interpreted as a SQL
LIKE pattern, not a literal substring: searching "%" over `stZ` returns
`ann` although none of her fields contains "%" as a substring, so the
result differs from the spec-side case-insensitive substring filter. -/
theorem search_wildcard_mismatch :
    list_customers stZ 0 100 (some "%")
      ≠ stZ.rows.filter (specSearchMatch "%") := by
  decide

/-- C6 (amended): for a provided search string free of the LIKE wildcard
characters (no percent sign and no underscore), the customer list returns
exactly the customers whose first name, last name or email contains the
string as a case-insensitive substring (then paginated); a string
containing wildcard characters is instead matched as a LIKE pattern.  The
spec's example holds: searching "zube" over `stZ` returns `ann`
(last name "Zuberi").  The order and product list endpoints accept no
search parameter. -/
theorem customer_search_substring :
    (∀ (st : CustomerStore) (skip limit : Nat) (s : String),
      (∀ ch ∈ lowerStr s, ¬ ch = '%' ∧ ¬ ch = '_') →
      list_customers st skip limit (some s)
        = ((st.rows.filter (specSearchMatch s)).drop skip).take limit) ∧
    list_customers stZ 0 100 (some "zube") = [ann] ∧
    (customerListParams.contains "search" = true ∧
      productListParams.contains "search" = false ∧
      orderListParams.contains "search" = false) := by
  refine ⟨?_, by decide, by decide, by decide, by decide⟩
  intro st skip limit s hwf
  by_cases hs : s = ""
  · subst hs
    have hfilter : st.rows.filter (specSearchMatch "") = st.rows := by
      refine List.filter_eq_self.mpr (fun a _ => ?_)
      show (occursIn (lowerStr "") (lowerStr a.first_name) ||
        occursIn (lowerStr "") (lowerStr a.last_name) ||
        occursIn (lowerStr "") (lowerStr a.email)) = true
      have he : lowerStr "" = [] := rfl
      rw [he, occursIn_nil_left, occursIn_nil_left, occursIn_nil_left]
      rfl
    simp [list_customers, hfilter]
  · have hfilter : (st.rows.filter (fun (c : Customer) =>
        ilike c.first_name ("%" ++ s ++ "%") ||
        ilike c.last_name ("%" ++ s ++ "%") ||
        ilike c.email ("%" ++ s ++ "%")))
          = st.rows.filter (specSearchMatch s) := by
      refine List.filter_congr (fun c _ => ?_)
      rw [ilike_pct_pattern c.first_name s hwf, ilike_pct_pattern c.last_name s hwf,
        ilike_pct_pattern c.email s hwf]
      rfl
    simp [list_customers, hs, hfilter]

/-- C6 witness: a wildcard-free search string, "Ann", filters `stZ` exactly
as the spec-side substring predicate does. -/
theorem customer_search_substring_witness :
    list_customers stZ 0 100 (some "Ann")
      = ((stZ.rows.filter (specSearchMatch "Ann")).drop 0).take 100 :=
  customer_search_substring.1 stZ 0 100 "Ann" (by decide)

/-- C9: unless the disable flag is set, each service's startup hook makes
up to 10 schema-creation attempts: it stops successfully at the first
attempt that succeeds; it sleeps the fixed delay after every connectivity
failure (including the final one); the first non-connectivity failure
terminates the process (the customer service calls the interpreter's exit,
the order and product services let the exception escape the startup hook,
aborting startup under the serving runtime); and after 10 connectivity
failures the loop simply ends, leaving the service running without a
guaranteed schema.  With the flag set, the phase is skipped entirely. -/
theorem startup_retry_policy :
    (∀ env : Nat → Attempt,
      startup_event_customer true env = StartupResult.skipped ∧
      startup_event_order true env = StartupResult.skipped ∧
      startup_event_product true env = StartupResult.skipped) ∧
    (∀ (env : Nat → Attempt) (k : Nat), k < 10 →
      (∀ j, j < k → env j = Attempt.connFail) → env k = Attempt.ok →
      startup_event_customer false env = StartupResult.success (k + 1) k ∧
      startup_event_order false env = StartupResult.success (k + 1) k ∧
      startup_event_product false env = StartupResult.success (k + 1) k) ∧
    (∀ (env : Nat → Attempt) (k : Nat), k < 10 →
      (∀ j, j < k → env j = Attempt.connFail) → env k = Attempt.otherFail →
      startup_event_customer false env = StartupResult.fatalExit ∧
      startup_event_order false env = StartupResult.unhandledError ∧
      startup_event_product false env = StartupResult.unhandledError) ∧
    (∀ env : Nat → Attempt,
      (∀ j, j < 10 → env j = Attempt.connFail) →
      startup_event_customer false env = StartupResult.exhausted 10 ∧
      startup_event_order false env = StartupResult.exhausted 10 ∧
      startup_event_product false env = StartupResult.exhausted 10) := by
  refine ⟨fun env => ⟨rfl, rfl, rfl⟩, ?_, ?_, ?_⟩
  · intro env k hk hconn hok
    have key : ∀ b : Bool, startupIter env b 10 0 0 = StartupResult.success (k + 1) k := by
      intro b
      have h1 := startupIter_conn env b k 10 0 0 (by omega)
        (fun j hj => by simpa using hconn j hj)
      obtain ⟨m, hm⟩ : ∃ m, 10 - k = m + 1 := ⟨9 - k, by omega⟩
      rw [h1, hm]
      simp only [Nat.zero_add]
      rw [startupIter, hok]
    exact ⟨key true, key false, key false⟩
  · intro env k hk hconn hother
    have key : ∀ b : Bool, startupIter env b 10 0 0
        = (if b then StartupResult.fatalExit else StartupResult.unhandledError) := by
      intro b
      have h1 := startupIter_conn env b k 10 0 0 (by omega)
        (fun j hj => by simpa using hconn j hj)
      obtain ⟨m, hm⟩ : ∃ m, 10 - k = m + 1 := ⟨9 - k, by omega⟩
      rw [h1, hm]
      simp only [Nat.zero_add]
      rw [startupIter, hother]
    exact ⟨by simpa using key true, by simpa using key false, by simpa using key false⟩
  · intro env hconn
    have key : ∀ b : Bool, startupIter env b 10 0 0 = StartupResult.exhausted 10 := by
      intro b
      have h1 := startupIter_conn env b 10 10 0 0 (by omega)
        (fun j hj => by simpa using hconn j hj)
      simpa using h1
    exact ⟨key true, key false, key false⟩

/-- C9 witness: with three connectivity failures then a success, all
services report success on attempt 4 after 3 sleeps; with nothing but
connectivity failures, the loop ends after 10 attempts and 10 sleeps. -/
theorem startup_retry_policy_witness :
    startup_event_customer false envW = StartupResult.success 4 3 ∧
    startup_event_order false envW = StartupResult.success 4 3 ∧
    startup_event_customer false (fun _ => Attempt.connFail)
      = StartupResult.exhausted 10 :=
  ⟨(startup_retry_policy.2.1 envW 3 (by omega)
      (fun j hj => by interval_cases j <;> rfl) (by rfl)).1,
   (startup_retry_policy.2.1 envW 3 (by omega)
      (fun j hj => by interval_cases j <;> rfl) (by rfl)).2.1,
   (startup_retry_policy.2.2.2 (fun _ => Attempt.connFail)
      (fun j hj => rfl)).1⟩

end Backend
